import Mathlib

/-!
Verification of the plugin package-management core of the etools launcher.

The Rust sources under src-tauri are shallowly embedded: serde_json values
become the inductive `Json`, filesystem contents become explicit `Option`
inputs (`none` = file absent), fallible Rust functions returning
`Result<T, String>` become `Except String T`, and the wall clock becomes an
explicit integer parameter.  Each definition transcribes one Rust function
and is named after it.
-/

namespace Etools

/-- Shallow model of a serde_json `Value`. -/
inductive Json where
  | null : Json
  | bool (b : Bool) : Json
  | num (n : Int) : Json
  | str (s : String) : Json
  | arr (elems : List Json) : Json
  | obj (fields : List (String × Json)) : Json

/-- Map lookup (`HashMap::get` and serde_json map lookup, on the
association-list model; keys are unique, the first binding wins). -/
def lookupKey (s : List (String × α)) (k : String) : Option α :=
  match s with
  | [] => none
  | (k', v) :: rest => if k' == k then some v else lookupKey rest k

/-- Map removal: `HashMap::remove` on the association-list model. -/
def eraseKey (s : List (String × α)) (k : String) : List (String × α) :=
  s.filter (fun p => p.1 != k)

/-- Map insertion: `HashMap::insert` on the association-list model. -/
def insertKey (s : List (String × α)) (k : String) (v : α) : List (String × α) :=
  (k, v) :: eraseKey s k

/-- Model of `serde_json::Value::get(key)`: key lookup on objects, `None` on
every other variant. -/
def Json.get (j : Json) (k : String) : Option Json :=
  match j with
  | .obj fields => lookupKey fields k
  | _ => none

/-- Model of `Value::as_str`. -/
def Json.asStr (j : Json) : Option String :=
  match j with
  | .str s => some s
  | _ => none

/-- Model of `Value::as_array`. -/
def Json.asArray (j : Json) : Option (List Json) :=
  match j with
  | .arr elems => some elems
  | _ => none

/-- Model of `Value::as_object`, as the object's field list. -/
def Json.asObject (j : Json) : Option (List (String × Json)) :=
  match j with
  | .obj fields => some fields
  | _ => none

/-- Model of `Value::is_null`.  Note `package_data["dependencies"]` indexes
with a `Null` default, so "slot is null" in the Rust code means the key is
absent or bound to null; callers model that with `jsonIndexIsNull`. -/
def Json.isNull (j : Json) : Bool :=
  match j with
  | .null => true
  | _ => false

/-- Model of `value[key].is_null()`: the `Index` impl yields `Null` for a
missing key and for non-objects. -/
def jsonIndexIsNull (j : Json) (k : String) : Bool :=
  match j.get k with
  | none => true
  | some v => v.isNull

def strStartsWithAux : List Char → List Char → Bool
  | _, [] => true
  | [], _ :: _ => false
  | c :: cs, p :: ps => c == p && strStartsWithAux cs ps

/-- Model of Rust `str::starts_with`, as a structural prefix test on the
character lists of the two strings. -/
def str_starts_with (s pre : String) : Bool :=
  strStartsWithAux s.data pre.data

/-- PluginCategory from models/plugin.rs. -/
inductive PluginCategory where
  | Productivity | Developer | Utilities | Search | Media | Integration
deriving DecidableEq

/-- MetadataError from models/plugin_metadata.rs. -/
inductive MetadataError where
  | MissingEtoolsField : MetadataError
  | MissingRequiredField (field : String) : MetadataError
  | InvalidCategory (category : String) : MetadataError
  | InvalidPackageName (name : String) : MetadataError
  | JsonParseError (msg : String) : MetadataError
deriving DecidableEq

/-- SettingOption from models/plugin_metadata.rs. -/
structure SettingOption where
  label : String
  value : Json

/-- PluginSetting from models/plugin_metadata.rs (`type` is serde-renamed to
`setting_type`). -/
structure PluginSetting where
  key : String
  label : String
  setting_type : String
  default : Json
  options : Option (List SettingOption)
  description : Option String

/-- EtoolsMetadata (ETP) from models/plugin_metadata.rs. -/
structure EtoolsMetadata where
  id : String
  display_name : String
  description : Option String
  category : PluginCategory
  icon : Option String
  homepage : Option String
  screenshots : Option (List String)
  permissions : List String
  triggers : List String
  settings : Option (List PluginSetting)

/-- Model of Rust `str::to_lowercase`, as per-character lowercasing of the
character list (the category strings involved are ASCII). -/
def str_to_lowercase (s : String) : String :=
  String.mk (s.data.map Char.toLower)

/-- EtoolsMetadata::parse_category: lowercases, then matches the closed enum. -/
def parse_category (s : String) : Except MetadataError PluginCategory :=
  match str_to_lowercase s with
  | "productivity" => .ok .Productivity
  | "developer" => .ok .Developer
  | "utilities" => .ok .Utilities
  | "search" => .ok .Search
  | "media" => .ok .Media
  | "integration" => .ok .Integration
  | _ => .error (.InvalidCategory s)

/-- Serde deserialization of an `Option` field of an object: absent or null
gives `none`; a present non-null value must deserialize or the containing
struct fails. -/
def parseOptField (fields : List (String × Json)) (k : String)
    (f : Json → Option α) : Option (Option α) :=
  match lookupKey fields k with
  | none => some none
  | some .null => some none
  | some v => (f v).map some

/-- Serde derive for SettingOption: `label` a required string, `value` a
required arbitrary value; unknown fields are ignored. -/
def parseSettingOption (j : Json) : Option SettingOption :=
  match j.asObject with
  | none => none
  | some fields => do
    let label ← (lookupKey fields "label").bind Json.asStr
    let value ← lookupKey fields "value"
    pure { label := label, value := value }

/-- Serde derive for PluginSetting: `key`, `label`, `type`, `default`
required; `options` and `description` optional. -/
def parsePluginSetting (j : Json) : Option PluginSetting :=
  match j.asObject with
  | none => none
  | some fields => do
    let key ← (lookupKey fields "key").bind Json.asStr
    let label ← (lookupKey fields "label").bind Json.asStr
    let settingType ← (lookupKey fields "type").bind Json.asStr
    let dflt ← lookupKey fields "default"
    let options ← parseOptField fields "options"
      (fun v => v.asArray.bind (·.mapM parseSettingOption))
    let description ← parseOptField fields "description" Json.asStr
    pure { key := key, label := label, setting_type := settingType,
           default := dflt, options := options, description := description }

/-- EtoolsMetadata::from_package_json, transcribed step by step.  The Rust
function checks the `etools` sub-object first (step 1 in its comments), then
the `@etools-plugin/` name convention, then each required field in order
id, displayName, category, permissions, triggers; optional fields never
fail. -/
def from_package_json (packageJson : Json) : Except MetadataError EtoolsMetadata :=
  match (packageJson.get "etools").bind Json.asObject with
  | none => .error .MissingEtoolsField
  | some etoolsMeta =>
    match (packageJson.get "name").bind Json.asStr with
    | none => .error (.MissingRequiredField "name")
    | some packageName =>
      if !(str_starts_with packageName "@etools-plugin/") then
        .error (.InvalidPackageName packageName)
      else
        match (lookupKey etoolsMeta "id").bind Json.asStr with
        | none => .error (.MissingRequiredField "id")
        | some id =>
          match (lookupKey etoolsMeta "displayName").bind Json.asStr with
          | none => .error (.MissingRequiredField "displayName")
          | some displayName =>
            let description :=
              match (lookupKey etoolsMeta "description").bind Json.asStr with
              | some d => some d
              | none => (packageJson.get "description").bind Json.asStr
            match (lookupKey etoolsMeta "category").bind Json.asStr with
            | none => .error (.MissingRequiredField "category")
            | some categoryStr =>
              match parse_category categoryStr with
              | .error e => .error e
              | .ok category =>
                let icon := (lookupKey etoolsMeta "icon").bind Json.asStr
                let homepage := (lookupKey etoolsMeta "homepage").bind Json.asStr
                let screenshots :=
                  ((lookupKey etoolsMeta "screenshots").bind Json.asArray).map
                    (fun a => a.filterMap Json.asStr)
                match (lookupKey etoolsMeta "permissions").bind Json.asArray with
                | none => .error (.MissingRequiredField "permissions")
                | some permArr =>
                  let permissions := permArr.filterMap Json.asStr
                  match (lookupKey etoolsMeta "triggers").bind Json.asArray with
                  | none => .error (.MissingRequiredField "triggers")
                  | some trigArr =>
                    let triggers := trigArr.filterMap Json.asStr
                    let settings :=
                      ((lookupKey etoolsMeta "settings").bind Json.asArray).bind
                        (fun a => a.mapM parsePluginSetting)
                    .ok { id := id, display_name := displayName,
                          description := description, category := category,
                          icon := icon, homepage := homepage,
                          screenshots := screenshots, permissions := permissions,
                          triggers := triggers, settings := settings }

/-- PluginHealthStatus from models/plugin.rs. -/
inductive PluginHealthStatus where
  | Healthy | Warning | Error | Unknown
deriving DecidableEq

/-- PluginErrorEntry from models/plugin.rs (`context` is a string map). -/
structure PluginErrorEntry where
  code : String
  message : String
  timestamp : Int
  context : Option (List (String × String))
deriving DecidableEq

/-- PluginHealth from models/plugin.rs. -/
structure PluginHealth where
  status : PluginHealthStatus
  message : Option String
  last_checked : Int
  errors : List PluginErrorEntry
deriving DecidableEq

/-- PluginUsageStats from models/plugin.rs. -/
structure PluginUsageStats where
  last_used : Option Int
  usage_count : Nat
  last_execution_time : Option Nat
  average_execution_time : Option Nat
deriving DecidableEq

/-- Default::default() for PluginUsageStats. -/
def PluginUsageStats.defaultStats : PluginUsageStats :=
  { last_used := none, usage_count := 0, last_execution_time := none,
    average_execution_time := none }

/-- PluginTrigger from models/plugin.rs. -/
structure PluginTrigger where
  keyword : String
  description : String
  hotkey : Option String
deriving DecidableEq

/-- PluginSource from models/plugin.rs. -/
inductive PluginSource where
  | Marketplace | Local | GithubRelease
deriving DecidableEq

/-- PluginUpdateMetadata from models/plugin.rs. -/
structure PluginUpdateMetadata where
  latest_version : String
  has_update : Bool
deriving DecidableEq

/-- Plugin from models/plugin.rs. -/
structure Plugin where
  id : String
  name : String
  version : String
  description : String
  author : Option String
  enabled : Bool
  permissions : List String
  entry_point : String
  triggers : List PluginTrigger
  settings : List (String × Json)
  health : PluginHealth
  usage_stats : PluginUsageStats
  installed_at : Int
  install_path : String
  source : PluginSource
  update_metadata : Option PluginUpdateMetadata

/-- PluginManifest from models/plugin.rs (the plugin.json shape). -/
structure PluginManifest where
  name : String
  version : String
  description : String
  author : Option String
  permissions : List String
  entry : String
  triggers : List PluginTrigger
deriving DecidableEq

/-- BulkOperationType from models/plugin.rs. -/
inductive BulkOperationType where
  | Enable | Disable | Uninstall | Update
deriving DecidableEq

/-- BulkOperationStatus from models/plugin.rs. -/
inductive BulkOperationStatus where
  | Pending | InProgress | Completed | PartialFailure | Failed
deriving DecidableEq

/-- BulkOperationResult from models/plugin.rs. -/
structure BulkOperationResult where
  plugin_id : String
  success : Bool
  error : Option String
deriving DecidableEq

/-- BulkOperation from models/plugin.rs. -/
structure BulkOperation where
  operation_type : BulkOperationType
  target_plugin_ids : List String
  status : BulkOperationStatus
  results : List BulkOperationResult
  started_at : Int
  completed_at : Option Int
deriving DecidableEq

/-!
State stores (cmds/plugins.rs).  Each store is one JSON object in its own
file; a file is modelled as `Option` of the parsed map (`none` = absent),
and a map as an association list with HashMap semantics for insert, remove
and get.  Filesystem write failures and malformed files are out of model.
-/

/-- load_plugin_state (cmds/plugins.rs): an absent plugin-state.json is an
empty map, otherwise the parsed map. -/
def load_plugin_state (file : Option (List (String × Bool))) : List (String × Bool) :=
  match file with
  | none => []
  | some s => s

/-- save_plugin_enabled_state (cmds/plugins.rs): load the store, insert the
flag for this plugin, write the whole map back.  The result is the new file
content. -/
def save_plugin_enabled_state (file : Option (List (String × Bool)))
    (pluginId : String) (enabled : Bool) : List (String × Bool) :=
  insertKey (load_plugin_state file) pluginId enabled

/-- get_plugin_enabled_state (cmds/plugins.rs): a plugin with no entry is
enabled by default. -/
def get_plugin_enabled_state (file : Option (List (String × Bool)))
    (pluginId : String) : Bool :=
  (lookupKey (load_plugin_state file) pluginId).getD true

/-- remove_plugin_state (cmds/plugins.rs): load the store, remove this
plugin's entry, write the whole map back. -/
def remove_plugin_state (file : Option (List (String × Bool)))
    (pluginId : String) : List (String × Bool) :=
  eraseKey (load_plugin_state file) pluginId

/-!
plugin_list (cmds/plugins.rs).  The directory scan, manifest read,
installation-time stat and per-plugin health computation are filesystem
effects; each discovered directory is modelled as one record carrying
those read results (manifest `none` = plugin.json unreadable or
unparsable, in which case the entry is silently skipped, as in the
source's `if let Ok(manifest)`).
-/

/-- One directory entry of the plugins directory as plugin_list reads it. -/
structure DiscoveredPlugin where
  dirName : String
  path : String
  manifest : Option PluginManifest
  installedAt : Int
  health : PluginHealth

/-- plugin_list (cmds/plugins.rs): join each discovered manifest with the
enablement store (default true) and the usage-stats store (default zeroed
stats). -/
def plugin_list (state : List (String × Bool))
    (usageStats : List (String × PluginUsageStats))
    (entries : List DiscoveredPlugin) : List Plugin :=
  entries.filterMap fun e =>
    match e.manifest with
    | none => none
    | some manifest =>
      some { id := e.dirName
             name := manifest.name
             version := manifest.version
             description := manifest.description
             author := manifest.author
             enabled := (lookupKey state e.dirName).getD true
             permissions := manifest.permissions
             entry_point := manifest.entry
             triggers := manifest.triggers
             settings := []
             health := e.health
             usage_stats := (lookupKey usageStats e.dirName).getD PluginUsageStats.defaultStats
             installed_at := e.installedAt
             install_path := e.path
             source := .Local
             update_metadata := none }

/-!
PluginService (services/plugin_service.rs): the TTL caches and the health
check.  `Instant` timestamps and `Duration` TTLs are modelled in whole
seconds as naturals; `Instant::elapsed()` on a monotonic clock is
`now - timestamp` (truncated subtraction, never negative).
-/

/-- CacheEntry from services/plugin_service.rs. -/
structure CacheEntry (α : Type) where
  data : α
  timestamp : Nat

/-- CacheEntry::is_expired: strictly greater than the TTL. -/
def CacheEntry.is_expired (e : CacheEntry α) (ttl : Nat) (now : Nat) : Bool :=
  now - e.timestamp > ttl

/-- PluginCache::new sets list_ttl to 60 seconds. -/
def list_ttl : Nat := 60

/-- PluginCache::new sets state_ttl to 30 seconds. -/
def state_ttl : Nat := 30

/-- PluginCache::get_plugins: return the cached list unless the entry is
expired against list_ttl. -/
def cache_get_plugins (cache : Option (CacheEntry α)) (now : Nat) : Option α :=
  match cache with
  | none => none
  | some e => if e.is_expired list_ttl now then none else some e.data

/-- PluginCache::get_state: return the cached enablement map unless the
entry is expired against state_ttl. -/
def cache_get_state (cache : Option (CacheEntry α)) (now : Nat) : Option α :=
  match cache with
  | none => none
  | some e => if e.is_expired state_ttl now then none else some e.data

/-- create_error_entry (services/plugin_service.rs). -/
def create_error_entry (message : String) (now : Int) : PluginErrorEntry :=
  { code := "PLUGIN_ERROR", message := message, timestamp := now, context := none }

/-- What the filesystem holds at `plugins/<id>/manifest.json` when
check_plugin_health reads it: absent, unreadable (read_to_string error),
present but not valid JSON, or valid JSON. -/
inductive ManifestFile where
  | absent : ManifestFile
  | unreadable (err : String) : ManifestFile
  | notJson : ManifestFile
  | parses : ManifestFile

/-- PluginService::check_plugin_health (services/plugin_service.rs,
lines 380-453), transcribed: `is_enabled` comes from the enablement cache
only and defaults to FALSE when the cache is empty or has no entry for the
plugin (`unwrap_or(false)`); then directory absent gives Error, disabled
gives Warning, manifest absent/unreadable/unparsable gives Error, and the
remaining case gives Healthy.  `last_checked` is stamped with now up
front; writing health.json back to disk is out of model. -/
def check_plugin_health (cacheState : Option (List (String × Bool)))
    (pluginId : String) (dirExists : Bool) (manifest : ManifestFile)
    (now : Int) : PluginHealth :=
  let health : PluginHealth :=
    { status := .Unknown, message := none, last_checked := now, errors := [] }
  let isEnabled := (cacheState.bind (fun s => lookupKey s pluginId)).getD false
  if !dirExists then
    { health with status := .Error
                  message := some "Plugin directory not found"
                  errors := health.errors ++ [create_error_entry "Plugin directory missing" now] }
  else if !isEnabled then
    { health with status := .Warning
                  message := some "Plugin is disabled" }
  else
    match manifest with
    | .absent =>
      { health with status := .Error
                    message := some "Plugin manifest not found"
                    errors := health.errors ++ [create_error_entry "manifest.json missing" now] }
    | .unreadable e =>
      { health with status := .Error
                    message := some ("Cannot read manifest: " ++ e)
                    errors := health.errors ++ [create_error_entry ("Failed to read manifest: " ++ e) now] }
    | .notJson =>
      { health with status := .Error
                    message := some "Invalid manifest format"
                    errors := health.errors ++ [create_error_entry "manifest.json is not valid JSON" now] }
    | .parses =>
      { health with status := .Healthy
                    message := some "Plugin is healthy and enabled" }

/-!
Bulk operations (cmds/plugins.rs, lines 809-934).  All three commands
share one shape: loop over the requested ids, run the single-item
operation, record one success-or-error result per id without aborting the
loop, classify the whole run by all/any/none success, stamp started_at and
completed_at.  The single-item operation is an effectful call; it is
abstracted as the function `outcome` giving the captured error for an id
(`none` = that item succeeded).
-/

/-- Shared body of bulk_enable_plugins, bulk_disable_plugins and
bulk_uninstall_plugins (cmds/plugins.rs). -/
def run_bulk (opType : BulkOperationType) (outcome : String → Option String)
    (startedAt completedAt : Int) (pluginIds : List String) : BulkOperation :=
  let results := pluginIds.map fun pid =>
    match outcome pid with
    | none => ({ plugin_id := pid, success := true, error := none } : BulkOperationResult)
    | some e => ({ plugin_id := pid, success := false, error := some e } : BulkOperationResult)
  let status :=
    if results.all (fun r => r.success) then BulkOperationStatus.Completed
    else if results.any (fun r => r.success) then BulkOperationStatus.PartialFailure
    else BulkOperationStatus.Failed
  { operation_type := opType
    target_plugin_ids := pluginIds
    status := status
    results := results
    started_at := startedAt
    completed_at := some completedAt }

/-- bulk_enable_plugins (cmds/plugins.rs). -/
def bulk_enable_plugins (outcome : String → Option String)
    (startedAt completedAt : Int) (pluginIds : List String) : BulkOperation :=
  run_bulk .Enable outcome startedAt completedAt pluginIds

/-- bulk_disable_plugins (cmds/plugins.rs). -/
def bulk_disable_plugins (outcome : String → Option String)
    (startedAt completedAt : Int) (pluginIds : List String) : BulkOperation :=
  run_bulk .Disable outcome startedAt completedAt pluginIds

/-- bulk_uninstall_plugins (cmds/plugins.rs). -/
def bulk_uninstall_plugins (outcome : String → Option String)
    (startedAt completedAt : Int) (pluginIds : List String) : BulkOperation :=
  run_bulk .Uninstall outcome startedAt completedAt pluginIds

/-!
Dependency-manifest handling (services/marketplace_service.rs and
cmds/marketplace.rs).  The manifest file plugins/package.json is a JSON
document; a mutation is modelled as producing the new file content.  The
npm subprocess, whose outcome does not affect the manifest logic under
test, is abstracted away on the success path.
-/

/-- Replace or add one key of an object field list (serde_json map
insert). -/
def setField (fields : List (String × Json)) (k : String) (v : Json) : List (String × Json) :=
  match fields with
  | [] => [(k, v)]
  | (k', v') :: rest => if k' == k then (k, v) :: rest else (k', v') :: setField rest k v

/-- Model of serde_json index assignment `j[k] = v`: insert into an object,
turn null into a fresh one-entry object.  On any other variant the Rust
operation panics; those inputs are outside every theorem below and the
value is returned unchanged. -/
def jsonSet (j : Json) (k : String) (v : Json) : Json :=
  match j with
  | .obj fields => .obj (setField fields k v)
  | .null => .obj [(k, v)]
  | other => other

/-- The empty dependency manifest both install paths write when
plugins/package.json is absent. -/
def default_plugins_package_json : Json :=
  .obj [("name", .str "etools-plugins"), ("version", .str "1.0.0"),
        ("description", .str "Installed plugins registry"),
        ("dependencies", .obj [])]

/-- MarketplaceService::install_plugin, manifest-merge portion
(services/marketplace_service.rs lines 452-505): create the manifest with
an empty dependency object if absent, error out when the dependency key
already exists (step 6, before any write), otherwise add the package at
"latest" and write the manifest back.  Result: the manifest file content
after the call, plus the returned error if any. -/
def marketplace_service_install (file : Option Json) (packageName : String) :
    Json × Option String :=
  let onDisk := file.getD default_plugins_package_json
  let deps := (onDisk.get "dependencies").getD (.obj [])
  match deps.get packageName with
  | some _ => (onDisk, some ("Plugin " ++ packageName ++ " already installed"))
  | none =>
    let newManifest := jsonSet onDisk "dependencies" (jsonSet deps packageName (.str "latest"))
    (newManifest, none)

/-- marketplace_install (cmds/marketplace.rs lines 63-131): run the service
install (its error propagates through `?`, leaving the manifest as the
service left it), then re-read the manifest, default a null-or-missing
dependencies slot to an empty object, `entry(..).or_insert("latest")` the
package, and write back. -/
def marketplace_install (file : Option Json) (packageName : String) :
    Json × Option String :=
  match marketplace_service_install file packageName with
  | (disk, some e) => (disk, some e)
  | (disk, none) =>
    let m := if jsonIndexIsNull disk "dependencies"
             then jsonSet disk "dependencies" (.obj []) else disk
    let m2 :=
      match (m.get "dependencies").bind Json.asObject with
      | some depFields =>
        match lookupKey depFields packageName with
        | some _ => m
        | none => jsonSet m "dependencies" (.obj (setField depFields packageName (.str "latest")))
      | none => jsonSet m "dependencies" (.obj [(packageName, .str "latest")])
    (m2, none)

/-!
plugin_uninstall (cmds/plugins.rs lines 1255-1349).  The persisted world it
can touch: the four state-store files, the dependency manifest, plus the
uninstalled package's own package.json (read to resolve the full package
name).  File contents are the parsed values; read/parse failures of
existing files are out of model.
-/

/-- PluginAbbreviation from cmds/plugins.rs. -/
structure PluginAbbreviation where
  keyword : String
  enabled : Bool
deriving DecidableEq

/-- The persisted state plugin_uninstall can read or write: the four state
stores (enablement flags, per-plugin settings, usage statistics,
abbreviations), the dependency manifest, and the parsed package.json of
the plugin being uninstalled (none when not installed locally). -/
structure AppState where
  enablement : Option (List (String × Bool))
  settings : Option (List (String × List (String × Json)))
  usageStats : Option (List (String × PluginUsageStats))
  abbreviations : Option (List (String × List PluginAbbreviation))
  pluginsManifest : Option Json
  installedPackageJson : Option Json

/-- The actual-package-name resolution block of plugin_uninstall: the
`name` string of the installed package's own package.json, with the
synthesized "@etools-plugin/<id>" fallback when that file is absent or its
name is not a string. -/
def actual_package_name (st : AppState) (pluginId : String) : String :=
  match st.installedPackageJson with
  | some data => ((data.get "name").bind Json.asStr).getD ("@etools-plugin/" ++ pluginId)
  | none => "@etools-plugin/" ++ pluginId

/-- Step 3 of plugin_uninstall: when the dependency manifest file exists,
default a null-or-missing dependencies slot to an empty object, remove the
resolved package name from it when it is an object, and write the result
back; when the file is absent this step is skipped. -/
def uninstall_manifest_update (manifestFile : Option Json) (pkg : String) : Option Json :=
  match manifestFile with
  | none => none
  | some m =>
    let m1 := if jsonIndexIsNull m "dependencies"
              then jsonSet m "dependencies" (.obj []) else m
    let m2 :=
      match (m1.get "dependencies").bind Json.asObject with
      | some depFields => jsonSet m1 "dependencies" (.obj (eraseKey depFields pkg))
      | none => m1
    some m2

/-- plugin_uninstall (cmds/plugins.rs): refuse core plugins; resolve the
full package name; run npm uninstall (its captured stderr is the
`npmStderr` input, `none` meaning exit success); remove the id from the
enablement store; remove the full package name from the manifest's
dependencies when the manifest file exists.  The settings, usage-stats and
abbreviation stores are never touched. -/
def plugin_uninstall (st : AppState) (pluginId : String)
    (npmStderr : Option String) : Except String AppState :=
  if pluginId == "core" || pluginId == "system" then
    .error ("不能卸载核心插件: " ++ pluginId)
  else
    let actualPackageName := actual_package_name st pluginId
    match npmStderr with
    | some err => .error ("npm uninstall failed: " ++ err)
    | none =>
      let newEnablement := remove_plugin_state st.enablement pluginId
      let newManifest := uninstall_manifest_update st.pluginsManifest actualPackageName
      .ok { st with enablement := some newEnablement, pluginsManifest := newManifest }

/-!
Helper lemmas about the association-list map model.
-/

theorem lookupKey_eraseKey_ne (s : List (String × α)) (x y : String) (h : y ≠ x) :
    lookupKey (eraseKey s x) y = lookupKey s y := by
  induction s with
  | nil => rfl
  | cons p t ih =>
    obtain ⟨k, v⟩ := p
    by_cases hk : k = x
    · subst hk
      have hky : (k == y) = false := by
        simp only [beq_eq_false_iff_ne]
        exact fun hq => h hq.symm
      simp [eraseKey, lookupKey, List.filter, hky, ih]
      simp [eraseKey] at ih
      exact ih
    · have hkx : (k != x) = true := by simp [bne, hk]
      simp only [eraseKey, List.filter] at *
      simp [hkx, lookupKey, ih]

theorem lookupKey_eraseKey_self (s : List (String × α)) (x : String) :
    lookupKey (eraseKey s x) x = none := by
  induction s with
  | nil => rfl
  | cons p t ih =>
    obtain ⟨k, v⟩ := p
    by_cases hk : k = x
    · subst hk
      simp only [eraseKey, List.filter] at *
      simp [ih]
    · have hkx : (k != x) = true := by simp [bne, hk]
      have hky : (k == x) = false := by simp [hk]
      simp only [eraseKey, List.filter] at *
      simp [hkx, lookupKey, hky, ih]

theorem lookupKey_insertKey_ne (s : List (String × α)) (x y : String) (v : α)
    (h : y ≠ x) : lookupKey (insertKey s x v) y = lookupKey s y := by
  have hxy : (x == y) = false := by
    simp only [beq_eq_false_iff_ne]
    exact fun hq => h hq.symm
  simp [insertKey, lookupKey, hxy, lookupKey_eraseKey_ne s x y h]

/-!
Claim theorems.
-/

/-- C10: saving one plugin's enablement flag, or removing one plugin's
state, leaves every other plugin's entry in the enablement store untouched,
for every prior store state (file absent included). -/
theorem c10_state_write_is_frame_preserving
    (file : Option (List (String × Bool))) (x y : String) (b : Bool)
    (h : y ≠ x) :
    lookupKey (save_plugin_enabled_state file x b) y
      = lookupKey (load_plugin_state file) y
    ∧ lookupKey (remove_plugin_state file x) y
      = lookupKey (load_plugin_state file) y := by
  constructor
  · exact lookupKey_insertKey_ne (load_plugin_state file) x y b h
  · exact lookupKey_eraseKey_ne (load_plugin_state file) x y h

/-- Witness for C10 at a concrete store and distinct ids. -/
theorem c10_witness :
    lookupKey (save_plugin_enabled_state (some [("a", false)]) "a" true) "b"
      = lookupKey (load_plugin_state (some [("a", false)])) "b"
    ∧ lookupKey (remove_plugin_state (some [("a", false)]) "a") "b"
      = lookupKey (load_plugin_state (some [("a", false)])) "b" :=
  c10_state_write_is_frame_preserving (some [("a", false)]) "a" "b" true (by decide)

/-- C8: a plugin id with no entry in the enablement store (file absent
included, since an absent file loads as the empty map) reads back as
enabled, and the plugin listing reports any discovered plugin with that id
as enabled. -/
theorem c8_enabled_by_default
    (file : Option (List (String × Bool)))
    (usageStats : List (String × PluginUsageStats))
    (entries : List DiscoveredPlugin) (pluginId : String)
    (h : lookupKey (load_plugin_state file) pluginId = none) :
    get_plugin_enabled_state file pluginId = true
    ∧ ∀ p ∈ plugin_list (load_plugin_state file) usageStats entries,
        p.id = pluginId → p.enabled = true := by
  constructor
  · simp [get_plugin_enabled_state, h]
  · intro p hp hid
    obtain ⟨e, he, hg⟩ := List.mem_filterMap.mp hp
    match hm : e.manifest with
    | none => rw [hm] at hg; cases hg
    | some manifest =>
      rw [hm] at hg
      have hpe := Option.some.inj hg
      have hpid : p.id = e.dirName := by rw [← hpe]
      have hdir : e.dirName = pluginId := by rw [← hpid, hid]
      have hen : p.enabled = (lookupKey (load_plugin_state file) e.dirName).getD true := by
        rw [← hpe]
      rw [hen, hdir, h]
      rfl

/-- Witness for C8 at an absent store file. -/
theorem c8_witness : get_plugin_enabled_state none "x" = true :=
  (c8_enabled_by_default none [] [] "x" rfl).1

/-- C9: each bulk operation on an empty id list returns status Completed
(the all-succeeded test is vacuously true), an empty results list, and a
set completed_at timestamp. -/
theorem c9_bulk_empty_list (outcome : String → Option String)
    (startedAt completedAt : Int) :
    (bulk_enable_plugins outcome startedAt completedAt []).status = .Completed
    ∧ (bulk_enable_plugins outcome startedAt completedAt []).results = []
    ∧ (bulk_enable_plugins outcome startedAt completedAt []).completed_at = some completedAt
    ∧ (bulk_disable_plugins outcome startedAt completedAt []).status = .Completed
    ∧ (bulk_disable_plugins outcome startedAt completedAt []).results = []
    ∧ (bulk_disable_plugins outcome startedAt completedAt []).completed_at = some completedAt
    ∧ (bulk_uninstall_plugins outcome startedAt completedAt []).status = .Completed
    ∧ (bulk_uninstall_plugins outcome startedAt completedAt []).results = []
    ∧ (bulk_uninstall_plugins outcome startedAt completedAt []).completed_at = some completedAt := by
  refine ⟨rfl, rfl, rfl, rfl, rfl, rfl, rfl, rfl, rfl⟩

/-- C2 (failing input): a plugin whose directory exists and whose manifest
parses, but which has no entry in the enablement state, is reported Warning
("Plugin is disabled") by check_plugin_health, because its enablement
lookup defaults to false — while the repository's own
get_plugin_enabled_state defaults the very same missing entry to enabled.
The spec's state machine says such a plugin must be Healthy. -/
theorem c2_unknown_plugin_health_is_warning :
    (check_plugin_health (some []) "x" true .parses 0).status = .Warning
    ∧ (check_plugin_health (some []) "x" true .parses 0).message
        = some "Plugin is disabled"
    ∧ get_plugin_enabled_state (some []) "x" = true := by
  refine ⟨rfl, rfl, rfl⟩

/-- C7 (counterexample): a plugin-list cache entry whose age is exactly the
60-second TTL is still served (the expiry test is strict >), refuting the
claim that validity is `now - captured < ttl`: here the age equals the TTL,
`now - captured < ttl` is false, yet the read hits. -/
theorem c7_counterexample :
    (cache_get_plugins (some (⟨(), 0⟩ : CacheEntry Unit)) 60).isSome = true
    ∧ ¬ ((60 : Nat) - 0 < list_ttl) := by
  refine ⟨rfl, by decide⟩

/-- C7 (amended): a cache entry is served iff its age is at most the TTL
(non-strict): `now - captured ≤ 60` for the plugin-list cache and
`now - captured ≤ 30` for the enablement-state cache; an entry aged exactly
the TTL is still valid. -/
theorem c7_cache_valid_iff_age_le_ttl {α : Type} (e : CacheEntry α) (now : Nat) :
    ((cache_get_plugins (some e) now).isSome = true ↔ now - e.timestamp ≤ list_ttl)
    ∧ ((cache_get_state (some e) now).isSome = true ↔ now - e.timestamp ≤ state_ttl) := by
  constructor
  · simp only [cache_get_plugins, CacheEntry.is_expired]
    by_cases h : now - e.timestamp > list_ttl
    · simp [h]
      omega
    · simp [h]
      omega
  · simp only [cache_get_state, CacheEntry.is_expired]
    by_cases h : now - e.timestamp > state_ttl
    · simp [h]
      omega
    · simp [h]
      omega

/-- Witness for the amended C7: an entry aged exactly the TTL is served. -/
theorem c7_witness :
    (cache_get_plugins (some (⟨(), 10⟩ : CacheEntry Unit)) 70).isSome = true :=
  (c7_cache_valid_iff_age_le_ttl ⟨(), 10⟩ 70).1.mpr (by decide)

/-- Concrete dependency manifest already holding the package, for C1. -/
def c1Manifest : Json :=
  .obj [("name", .str "etools-plugins"), ("version", .str "1.0.0"),
        ("description", .str "Installed plugins registry"),
        ("dependencies", .obj [("@etools-plugin/bar", .str "latest")])]

/-- C1 (counterexample): installing the same package twice.  The first call
on an absent manifest succeeds with no error; the second call, on the
manifest the first call wrote, returns the error "Plugin
@etools-plugin/bar already installed" — the claim says the second call
does not return an error. -/
theorem c1_counterexample :
    (marketplace_install none "@etools-plugin/bar").2 = none
    ∧ (marketplace_install (some (marketplace_install none "@etools-plugin/bar").1)
        "@etools-plugin/bar").2
        = some "Plugin @etools-plugin/bar already installed" := by
  refine ⟨rfl, rfl⟩

/-- C1 (amended): for a package name already present as a key of the
manifest's dependencies object, calling the install operation again leaves
the manifest file byte-for-byte unchanged, but it returns the error
"Plugin <name> already installed" rather than succeeding as a no-op: the
service-layer guard fires before any write, and its error propagates out
of the command before the command-layer or_insert merge is reached. -/
theorem c1_reinstall_keeps_manifest_but_errors
    (m : Json) (depFields : List (String × Json)) (pkg : String) (v : Json)
    (hdeps : m.get "dependencies" = some (.obj depFields))
    (hhas : lookupKey depFields pkg = some v) :
    marketplace_install (some m) pkg
      = (m, some ("Plugin " ++ pkg ++ " already installed")) := by
  unfold marketplace_install marketplace_service_install
  simp only [Option.getD_some, hdeps]
  simp [Json.get, hhas]

/-- Witness for the amended C1 at the concrete manifest. -/
theorem c1_witness :
    marketplace_install (some c1Manifest) "@etools-plugin/bar"
      = (c1Manifest, some "Plugin @etools-plugin/bar already installed") :=
  c1_reinstall_keeps_manifest_but_errors c1Manifest
    [("@etools-plugin/bar", .str "latest")] "@etools-plugin/bar"
    (.str "latest") rfl rfl

/-- Concrete world state for C3 with entries for plugin "x" in all four
state stores and in the dependency manifest. -/
def c3State : AppState :=
  { enablement := some [("x", true)]
    settings := some [("x", [("k", Json.str "v")])]
    usageStats := some [("x", PluginUsageStats.defaultStats)]
    abbreviations := some [("x", [{ keyword := "xx", enabled := true }])]
    pluginsManifest := some c1Manifest
    installedPackageJson := some (.obj [("name", .str "@etools-plugin/x")]) }

/-- World state with nothing persisted at all, for the no-op witness. -/
def c3EmptyState : AppState :=
  { enablement := none, settings := none, usageStats := none,
    abbreviations := none, pluginsManifest := none,
    installedPackageJson := none }

/-- C3 (counterexample): after a successful plugin_uninstall of "x", the
per-plugin settings, usage-statistics and abbreviation stores still hold
their entries for "x" — the command removes the enablement entry and the
manifest dependency only, refuting "removes that id's entries from all
four State Stores". -/
theorem c3_counterexample :
    (plugin_uninstall c3State "x" none).map
        (fun s => (lookupKey (s.settings.getD []) "x").isSome) = .ok true
    ∧ (plugin_uninstall c3State "x" none).map
        (fun s => (lookupKey (s.usageStats.getD []) "x").isSome) = .ok true
    ∧ (plugin_uninstall c3State "x" none).map
        (fun s => (lookupKey (s.abbreviations.getD []) "x").isSome) = .ok true := by
  refine ⟨rfl, rfl, rfl⟩

/-- C3 (amended): for every prior state (entries present or absent),
plugin_uninstall of a non-core id with a successful npm run completes
without error; it removes the id's entry from the enablement store and the
resolved package name from the dependency manifest's dependencies object,
and it leaves the settings, usage-statistics and abbreviation stores
untouched. -/
theorem c3_uninstall_removes_enablement_and_manifest_only
    (st : AppState) (pluginId : String)
    (h1 : (pluginId == "core") = false) (h2 : (pluginId == "system") = false) :
    ∃ st', plugin_uninstall st pluginId none = .ok st'
      ∧ lookupKey (st'.enablement.getD []) pluginId = none
      ∧ st'.settings = st.settings
      ∧ st'.usageStats = st.usageStats
      ∧ st'.abbreviations = st.abbreviations
      ∧ (st.pluginsManifest = none → st'.pluginsManifest = none)
      ∧ (∀ m depFields, st.pluginsManifest = some m →
          m.get "dependencies" = some (Json.obj depFields) →
          ∃ newDeps,
            st'.pluginsManifest = some (jsonSet m "dependencies" (Json.obj newDeps))
            ∧ lookupKey newDeps (actual_package_name st pluginId) = none) := by
  refine ⟨{ st with
      enablement := some (remove_plugin_state st.enablement pluginId),
      pluginsManifest :=
        uninstall_manifest_update st.pluginsManifest (actual_package_name st pluginId) },
    ?_, ?_, rfl, rfl, rfl, ?_, ?_⟩
  · simp [plugin_uninstall, h1, h2]
  · simp [remove_plugin_state, lookupKey_eraseKey_self]
  · intro hc
    simp [uninstall_manifest_update, hc]
  · intro m depFields hm hd
    have hnull : jsonIndexIsNull m "dependencies" = false := by
      simp [jsonIndexIsNull, hd, Json.isNull]
    refine ⟨eraseKey depFields (actual_package_name st pluginId), ?_,
            lookupKey_eraseKey_self _ _⟩
    simp [uninstall_manifest_update, hm, hnull, hd, Json.asObject]

/-- Witness for the amended C3: uninstalling an id with no persisted
entries anywhere completes without error. -/
theorem c3_witness : (plugin_uninstall c3EmptyState "x" none).isOk = true := by
  obtain ⟨st', hok, -⟩ :=
    c3_uninstall_removes_enablement_and_manifest_only c3EmptyState "x" rfl rfl
  rw [hok]
  rfl

/-- The per-id result record the bulk loop builds for one plugin id. -/
def bulk_item_result (outcome : String → Option String) (pid : String) :
    BulkOperationResult :=
  match outcome pid with
  | none => { plugin_id := pid, success := true, error := none }
  | some e => { plugin_id := pid, success := false, error := some e }

theorem run_bulk_results_eq (opType : BulkOperationType)
    (outcome : String → Option String) (startedAt completedAt : Int)
    (pluginIds : List String) :
    (run_bulk opType outcome startedAt completedAt pluginIds).results
      = pluginIds.map (bulk_item_result outcome) := rfl

theorem bulk_item_result_plugin_id (outcome : String → Option String)
    (pid : String) : (bulk_item_result outcome pid).plugin_id = pid := by
  unfold bulk_item_result
  cases outcome pid <;> rfl

/-- C4: a bulk enable/disable/uninstall operation returns exactly one
result entry per requested id (in request order, so one failure never
aborts or drops the other items), and its status is Completed exactly when
every per-id result succeeded, PartialFailure exactly when successes and
failures are mixed, and Failed exactly when the request was non-empty and
every per-id result failed. -/
theorem c4_bulk_per_id_results_and_status (opType : BulkOperationType)
    (outcome : String → Option String) (startedAt completedAt : Int)
    (pluginIds : List String) :
    (run_bulk opType outcome startedAt completedAt pluginIds).results.length
        = pluginIds.length
    ∧ (run_bulk opType outcome startedAt completedAt pluginIds).results.map
        BulkOperationResult.plugin_id = pluginIds
    ∧ ((run_bulk opType outcome startedAt completedAt pluginIds).status
          = .Completed
        ↔ ∀ r ∈ (run_bulk opType outcome startedAt completedAt pluginIds).results,
            r.success = true)
    ∧ ((run_bulk opType outcome startedAt completedAt pluginIds).status
          = .PartialFailure
        ↔ (∃ r ∈ (run_bulk opType outcome startedAt completedAt pluginIds).results,
              r.success = true)
          ∧ ∃ r ∈ (run_bulk opType outcome startedAt completedAt pluginIds).results,
              r.success = false)
    ∧ ((run_bulk opType outcome startedAt completedAt pluginIds).status
          = .Failed
        ↔ pluginIds ≠ []
          ∧ ∀ r ∈ (run_bulk opType outcome startedAt completedAt pluginIds).results,
              r.success = false) := by
  rw [run_bulk_results_eq]
  have hstat : (run_bulk opType outcome startedAt completedAt pluginIds).status
      = (if (pluginIds.map (bulk_item_result outcome)).all (fun r => r.success)
         then BulkOperationStatus.Completed
         else if (pluginIds.map (bulk_item_result outcome)).any (fun r => r.success)
         then BulkOperationStatus.PartialFailure
         else BulkOperationStatus.Failed) := rfl
  rw [hstat]
  clear hstat
  refine ⟨by simp, ?_, ?_, ?_, ?_⟩
  · induction pluginIds with
    | nil => rfl
    | cons hd tl ih =>
      simp only [List.map_cons, List.cons.injEq]
      exact ⟨bulk_item_result_plugin_id outcome hd, ih⟩
  · by_cases hall : (pluginIds.map (bulk_item_result outcome)).all (fun r => r.success) = true
    · rw [if_pos hall]
      exact iff_of_true rfl (by simpa using List.all_eq_true.mp hall)
    · rw [if_neg hall]
      constructor
      · intro hc
        by_cases hany : (pluginIds.map (bulk_item_result outcome)).any (fun r => r.success) = true
        · rw [if_pos hany] at hc; cases hc
        · rw [if_neg hany] at hc; cases hc
      · intro hforall
        exact absurd (List.all_eq_true.mpr (by simpa using hforall)) hall
  · by_cases hall : (pluginIds.map (bulk_item_result outcome)).all (fun r => r.success) = true
    · rw [if_pos hall]
      constructor
      · intro hc; cases hc
      · rintro ⟨-, r, hr, hrf⟩
        have := List.all_eq_true.mp hall r hr
        rw [hrf] at this
        cases this
    · rw [if_neg hall]
      by_cases hany : (pluginIds.map (bulk_item_result outcome)).any (fun r => r.success) = true
      · rw [if_pos hany]
        refine iff_of_true rfl ⟨?_, ?_⟩
        · simpa using List.any_eq_true.mp hany
        · have hne := hall
          rw [List.all_eq_true] at hne
          push_neg at hne
          obtain ⟨r, hr, hrf⟩ := hne
          exact ⟨r, hr, by simpa using hrf⟩
      · rw [if_neg hany]
        refine iff_of_false (by intro hc; cases hc) ?_
        rintro ⟨⟨r, hr, hrt⟩, -⟩
        exact absurd (List.any_eq_true.mpr ⟨r, hr, by simpa using hrt⟩) hany
  · by_cases hall : (pluginIds.map (bulk_item_result outcome)).all (fun r => r.success) = true
    · rw [if_pos hall]
      refine iff_of_false (by intro hc; cases hc) ?_
      rintro ⟨hne, hforall⟩
      obtain ⟨pid, hpid⟩ := List.exists_mem_of_ne_nil pluginIds hne
      have hmem : bulk_item_result outcome pid ∈
          pluginIds.map (bulk_item_result outcome) := List.mem_map_of_mem _ hpid
      have h1 := List.all_eq_true.mp hall _ hmem
      have h2 := hforall _ hmem
      rw [h2] at h1
      cases h1
    · rw [if_neg hall]
      by_cases hany : (pluginIds.map (bulk_item_result outcome)).any (fun r => r.success) = true
      · rw [if_pos hany]
        refine iff_of_false (by intro hc; cases hc) ?_
        rintro ⟨-, hforall⟩
        obtain ⟨r, hr, hrt⟩ := List.any_eq_true.mp hany
        have := hforall r hr
        rw [this] at hrt
        cases hrt
      · rw [if_neg hany]
        refine iff_of_true rfl ⟨?_, ?_⟩
        · intro hnil
          subst hnil
          simp [List.all_nil] at hall
        · intro r hr
          by_contra hrt
          have hsucc : r.success = true := by
            cases hsucc : r.success with
            | true => rfl
            | false => exact absurd hsucc hrt
          exact absurd (List.any_eq_true.mpr ⟨r, hr, by simpa using hsucc⟩) hany

/-- Concrete per-id outcome for the C4 witness: B fails, A and C succeed. -/
def c4Outcome (pid : String) : Option String :=
  if pid = "b" then some "uninstall failed" else none

/-- Witness for C4: a bulk uninstall over three ids with one failure is a
PartialFailure with three results. -/
theorem c4_witness :
    (run_bulk .Uninstall c4Outcome 0 0 ["a", "b", "c"]).status = .PartialFailure
    ∧ (run_bulk .Uninstall c4Outcome 0 0 ["a", "b", "c"]).results.length = 3 := by
  have h := c4_bulk_per_id_results_and_status .Uninstall c4Outcome 0 0 ["a", "b", "c"]
  refine ⟨h.2.2.2.1.mpr ⟨?_, ?_⟩, h.1⟩
  · exact ⟨bulk_item_result c4Outcome "a", by rw [run_bulk_results_eq]; simp, rfl⟩
  · exact ⟨bulk_item_result c4Outcome "b", by rw [run_bulk_results_eq]; simp, rfl⟩

/-- Concrete manifest for C5: its declared name violates the registry
convention AND its metadata sub-object is absent. -/
def c5Manifest : Json := .obj [("name", .str "invalid-package")]

/-- C5 (counterexample): on a manifest whose name violates the convention
and whose metadata sub-object is absent, parse returns MissingEtoolsField,
not InvalidPackageName — the sub-object check runs first, so the claimed
ordering (name convention before metadata presence) fails. -/
theorem c5_counterexample :
    from_package_json c5Manifest = .error .MissingEtoolsField
    ∧ from_package_json c5Manifest ≠ .error (.InvalidPackageName "invalid-package") := by
  refine ⟨rfl, ?_⟩
  intro h
  rw [show from_package_json c5Manifest = .error .MissingEtoolsField from rfl] at h
  simp at h

/-- C5 (amended): the metadata sub-object check runs first: a manifest
without the sub-object yields MissingEtoolsField even when its name also
violates the convention; InvalidPackageName is returned exactly for
manifests that do contain the sub-object and declare a name string that
fails the "@etools-plugin/" convention. -/
theorem c5_etools_check_precedes_name_check (p : Json) :
    ((p.get "etools").bind Json.asObject = none →
      from_package_json p = .error .MissingEtoolsField)
    ∧ (∀ o n, (p.get "etools").bind Json.asObject = some o →
        (p.get "name").bind Json.asStr = some n →
        str_starts_with n "@etools-plugin/" = false →
        from_package_json p = .error (.InvalidPackageName n)) := by
  constructor
  · intro h
    unfold from_package_json
    rw [h]
  · intro o n hE hN hpre
    unfold from_package_json
    simp [hE, hN, hpre]

/-- Witness for the amended C5: both branches at concrete manifests. -/
theorem c5_witness :
    from_package_json (.obj [("name", .str "bad"), ("etools", .obj [])])
      = .error (.InvalidPackageName "bad")
    ∧ from_package_json c5Manifest = .error .MissingEtoolsField :=
  ⟨(c5_etools_check_precedes_name_check _).2 [] "bad" rfl rfl (by decide),
   (c5_etools_check_precedes_name_check c5Manifest).1 rfl⟩

/-- The first required ETP field that is absent or has the wrong top-level
JSON kind, in the order the parser checks them (id, displayName, category
as strings; permissions, triggers as arrays). -/
def required_field_offender (etoolsMeta : List (String × Json)) : Option String :=
  match (lookupKey etoolsMeta "id").bind Json.asStr with
  | none => some "id"
  | some _ =>
    match (lookupKey etoolsMeta "displayName").bind Json.asStr with
    | none => some "displayName"
    | some _ =>
      match (lookupKey etoolsMeta "category").bind Json.asStr with
      | none => some "category"
      | some _ =>
        match (lookupKey etoolsMeta "permissions").bind Json.asArray with
        | none => some "permissions"
        | some _ =>
          match (lookupKey etoolsMeta "triggers").bind Json.asArray with
          | none => some "triggers"
          | some _ => none

/-- Concrete manifest for C6: `permissions` is an array containing the
number 1 — not an array of strings. -/
def c6Manifest : Json :=
  .obj [("name", .str "@etools-plugin/x"),
        ("etools", .obj [("id", .str "x"), ("displayName", .str "X"),
                         ("category", .str "utilities"),
                         ("permissions", .arr [.num 1]),
                         ("triggers", .arr [.str "x:"])])]

/-- The successfully parsed metadata of c6Manifest: the non-string element
of `permissions` was silently dropped. -/
def c6Meta : EtoolsMetadata :=
  { id := "x", display_name := "X", description := none,
    category := .Utilities, icon := none, homepage := none,
    screenshots := none, permissions := [], triggers := ["x:"],
    settings := none }

/-- C6 (counterexample): a manifest whose required `permissions` field is
wrongly typed (an array holding the number 1, not an array of strings)
still parses successfully — filter_map drops the non-string element — so
"a manifest with a wrongly-typed required field never yields a
successfully parsed EtoolsMetadata" fails. -/
theorem c6_counterexample :
    (c6Manifest.get "etools").bind Json.asObject
        = some [("id", .str "x"), ("displayName", .str "X"),
                ("category", .str "utilities"),
                ("permissions", .arr [.num 1]),
                ("triggers", .arr [.str "x:"])]
    ∧ Json.asStr (.num 1) = none
    ∧ from_package_json c6Manifest = .ok c6Meta := by
  refine ⟨rfl, rfl, rfl⟩

/-- C6 (amended): for a manifest containing the metadata sub-object and a
conforming name, parse returns MissingRequiredField naming the first
required field (in the order id, displayName, category, permissions,
triggers) that is absent or of the wrong top-level JSON kind (strings for
id/displayName/category, arrays for permissions/triggers), provided the
category string maps onto the enum when the offender comes after it;
elements of the permissions/triggers arrays that are not strings never
cause a failure (they are dropped). -/
theorem c6_missing_required_field_naming
    (p : Json) (o : List (String × Json)) (n f : String)
    (hE : (p.get "etools").bind Json.asObject = some o)
    (hN : (p.get "name").bind Json.asStr = some n)
    (hok : str_starts_with n "@etools-plugin/" = true)
    (hf : required_field_offender o = some f)
    (hcat : ∀ s, (lookupKey o "category").bind Json.asStr = some s →
        f = "permissions" ∨ f = "triggers" → (parse_category s).isOk = true) :
    from_package_json p = .error (.MissingRequiredField f) := by
  unfold from_package_json
  unfold required_field_offender at hf
  simp only [hE, hN, hok, Bool.not_true]
  cases hid : (lookupKey o "id").bind Json.asStr with
  | none =>
    simp only [hid] at hf
    have hfe : f = "id" := (Option.some.inj hf).symm
    subst hfe
    simp [hid]
  | some idv =>
    simp only [hid] at hf
    cases hdn : (lookupKey o "displayName").bind Json.asStr with
    | none =>
      simp only [hdn] at hf
      have hfe : f = "displayName" := (Option.some.inj hf).symm
      subst hfe
      simp [hdn]
    | some dnv =>
      simp only [hdn] at hf
      cases hct : (lookupKey o "category").bind Json.asStr with
      | none =>
        simp only [hct] at hf
        have hfe : f = "category" := (Option.some.inj hf).symm
        subst hfe
        simp [hct]
      | some catv =>
        simp only [hct] at hf
        have hfpt : f = "permissions" ∨ f = "triggers" := by
          cases hperm : (lookupKey o "permissions").bind Json.asArray with
          | none =>
            simp only [hperm] at hf
            exact Or.inl (Option.some.inj hf).symm
          | some permArr =>
            simp only [hperm] at hf
            cases htrig : (lookupKey o "triggers").bind Json.asArray with
            | none =>
              simp only [htrig] at hf
              exact Or.inr (Option.some.inj hf).symm
            | some trigArr =>
              simp only [htrig] at hf
              cases hf
        have hcatok := hcat catv hct hfpt
        cases hpc : parse_category catv with
        | error e => rw [hpc] at hcatok; cases hcatok
        | ok cat =>
          simp only [hpc, hid, hdn, hct]
          cases hperm : (lookupKey o "permissions").bind Json.asArray with
          | none =>
            simp only [hperm] at hf
            have hfe : f = "permissions" := (Option.some.inj hf).symm
            subst hfe
            simp [hperm]
          | some permArr =>
            simp only [hperm] at hf
            cases htrig : (lookupKey o "triggers").bind Json.asArray with
            | none =>
              simp only [htrig] at hf
              have hfe : f = "triggers" := (Option.some.inj hf).symm
              subst hfe
              simp [htrig]
            | some trigArr =>
              simp only [htrig] at hf
              cases hf

/-- Witness for the amended C6: a manifest with the sub-object and a valid
name whose `id` is missing yields MissingRequiredField "id". -/
theorem c6_witness :
    from_package_json (.obj [("name", .str "@etools-plugin/x"), ("etools", .obj [])])
      = .error (.MissingRequiredField "id") :=
  c6_missing_required_field_naming
    (.obj [("name", .str "@etools-plugin/x"), ("etools", .obj [])])
    [] "@etools-plugin/x" "id" rfl rfl (by decide) rfl
    (fun s hs _ => by cases hs)

end Etools
